import Mathlib

/-!
Verification of the convention-based route builder in `src/node-js-example.ts`
(class `RouteUtil`). The TypeScript code is shallowly embedded: JavaScript
values returned by controller methods become the inductive `JsValue`
(numbers modelled as integers; the code never relies on NaN or -0),
the express response object becomes the record `Res` (its status code plus
the body passed to `res.json`, if any), and the directory tree scanned by
`buildSubFolderRoutes` becomes the inductive `FsEntry`. A successful
`require` of `<PascalCaseFolderName>Controller.ts` followed by `new` is
modelled by the `Option Controller` carried on a directory entry; the
router is modelled by the list of `Route` records the builder registers,
in registration order.
-/

namespace RouteUtil

/-- JavaScript values as far as the route builder inspects them: the
result of a controller method and the JSON body sent back. Objects are
association lists of own enumerable properties. -/
inductive JsValue where
  | vNull
  | vUndefined
  | vBool (b : Bool)
  | vNum (n : Int)
  | vStr (s : String)
  | vArr (elems : List JsValue)
  | vObj (fields : List (String × JsValue))

/-- JavaScript truthiness (`!result` in the source negates this): null,
undefined, false, the number 0 and the empty string are falsy. -/
def truthy : JsValue → Bool
  | JsValue.vNull => false
  | JsValue.vUndefined => false
  | JsValue.vBool b => b
  | JsValue.vNum n => n != 0
  | JsValue.vStr s => s != ""
  | JsValue.vArr _ => true
  | JsValue.vObj _ => true

/-- Strict equality with the number literal 0 (`result !== 0` in
`getControllerMethod` is the negation of this). -/
def isNumZero : JsValue → Bool
  | JsValue.vNum n => n == 0
  | _ => false

/-- The check `result.hasOwnProperty('password')` from `resultSend`: only
an object with an own `password` key passes; strings, numbers and arrays
produced by controllers have no such own property. -/
def hasOwnPassword : JsValue → Bool
  | JsValue.vObj fields => fields.any (fun kv => kv.1 == "password")
  | _ => false

/-- The statement `delete result.password` from `resultSend`: removes the
own `password` key of an object; anything else is untouched. -/
def deletePassword : JsValue → JsValue
  | JsValue.vObj fields => JsValue.vObj (fields.filter (fun kv => kv.1 != "password"))
  | v => v

/-- The express response object as the builder observes it: its status
code at the time `resultSend` runs, and the body handed to `res.json`
when that call happens. -/
structure Res where
  statusCode : Nat
  jsonSent : Option JsValue

/-- RouteUtil.resultSend: deletes an own `password` property from a truthy
result, then serializes the result with `res.json` exactly when the
response status code is 200 (otherwise it just returns `res`). -/
def resultSend (res : Res) (result : JsValue) : Res :=
  let result2 := if truthy result && hasOwnPassword result then deletePassword result else result
  if res.statusCode = 200 then { res with jsonSent := some result2 } else res

/-- Outcome of one run of the wrapper produced by
`RouteUtil.getControllerMethod`: the final response state and the argument
`next` was called with, when it was called. -/
structure HandlerOutcome where
  res : Res
  nextCalledWith : Option JsValue

/-- RouteUtil.getControllerMethod: behavior of the returned async wrapper,
given the outcome of `await controller[methodName](req, res, next)`
(`Except.error` models a throw or a rejected promise) and the response
state at that point. A falsy result other than the number 0 is replaced by
the string 'ok'; a thrown error is passed to `next` and nothing is sent. -/
def getControllerMethod (methodOutcome : Except JsValue JsValue) (res : Res) : HandlerOutcome :=
  match methodOutcome with
  | Except.error e => { res := res, nextCalledWith := some e }
  | Except.ok result =>
    if !truthy result && !isNumZero result then
      { res := resultSend res (JsValue.vStr "ok"), nextCalledWith := none }
    else
      { res := resultSend res result, nextCalledWith := none }

/-- A single validation error as produced by
`validationResult(req).array()`: the offending parameter and message. -/
structure VError where
  param : String
  msg : String

/-- What `RouteUtil.errorChecker` does on a request: either it calls
`next()` or it throws a `ValidationError` carrying a message. -/
inductive CheckerOutcome where
  | calledNext
  | threwValidationError (message : String)

/-- RouteUtil.errorChecker: destructures the first entry of
`validationResult(req).array()` (modelled as the request's list of
validation errors); with no first error it calls `next()`, otherwise it
throws `new ValidationError(error.param + ' ' + error.msg)`. -/
def errorChecker (errors : List VError) : CheckerOutcome :=
  match errors with
  | [] => CheckerOutcome.calledNext
  | e :: _ => CheckerOutcome.threwValidationError (e.param ++ " " ++ e.msg)

/-- A JSON value contains a `password` field somewhere: at its own top
level, inside a nested object value, or inside an array element. -/
inductive HasPasswordField : JsValue → Prop where
  | here (fields : List (String × JsValue)) (v : JsValue) :
      ("password", v) ∈ fields → HasPasswordField (JsValue.vObj fields)
  | inObj (fields : List (String × JsValue)) (k : String) (v : JsValue) :
      (k, v) ∈ fields → HasPasswordField v → HasPasswordField (JsValue.vObj fields)
  | inArr (elems : List JsValue) (v : JsValue) :
      v ∈ elems → HasPasswordField v → HasPasswordField (JsValue.vArr elems)

/-- an ASCII lower-case letter, character class `a-z` of the change-case
regexes. -/
def isLowerCh (c : Char) : Bool := decide (97 ≤ c.toNat) && decide (c.toNat ≤ 122)

/-- an ASCII upper-case letter, character class `A-Z` of the change-case
regexes. -/
def isUpperCh (c : Char) : Bool := decide (65 ≤ c.toNat) && decide (c.toNat ≤ 90)

/-- an ASCII digit, character class `0-9` of the change-case regexes. -/
def isDigitCh (c : Char) : Bool := decide (48 ≤ c.toNat) && decide (c.toNat ≤ 57)

/-- a word character of the no-case library's NON_WORD_REGEXP (identifiers
in this codebase are ASCII, so the regexp's word class reduces to
letters and digits). -/
def isWordCh (c : Char) : Bool := isLowerCh c || isUpperCh c || isDigitCh c

/-- the space character the no-case camel-boundary replacements insert. -/
def spaceChar : Char := Char.ofNat 32

/-- first pass of the no-case library (CAMEL_CASE_REGEXP, global
replacement of `([a-z0-9])([A-Z])` by the two groups separated by a
space): a separator lands between every lower-case-or-digit character and
a following upper-case character. -/
def camelSplitLower : List Char → List Char
  | c1 :: c2 :: rest =>
    if (isLowerCh c1 || isDigitCh c1) && isUpperCh c2 then
      c1 :: spaceChar :: camelSplitLower (c2 :: rest)
    else c1 :: camelSplitLower (c2 :: rest)
  | l => l

/-- second pass of the no-case library (CAMEL_CASE_UPPER_REGEXP, global
replacement of `([A-Z]+)([A-Z][a-z0-9]+)` by the groups separated by a
space): a separator lands between two upper-case characters when the
character after them is lower case or a digit. -/
def camelSplitUpper : List Char → List Char
  | c1 :: c2 :: c3 :: rest =>
    if isUpperCh c1 && isUpperCh c2 && (isLowerCh c3 || isDigitCh c3) then
      c1 :: spaceChar :: camelSplitUpper (c2 :: c3 :: rest)
    else c1 :: camelSplitUpper (c2 :: c3 :: rest)
  | l => l

/-- third pass of the no-case library: every maximal run of non-word
characters becomes one delimiter, except at the very start or end of the
string where it is dropped; equivalently, the string splits into its
maximal word-character runs. -/
def wordsSplit : List Char → List (List Char)
  | [] => [[]]
  | c :: rest =>
    if isWordCh c then
      match wordsSplit rest with
      | [] => [[c]]
      | w :: ws => (c :: w) :: ws
    else [] :: wordsSplit rest

/-- the words the no-case library finds in a string, lower-cased. -/
def noCaseWords (s : String) : List String :=
  ((wordsSplit (camelSplitUpper (camelSplitLower s.data))).filter (fun w => w ≠ [])).map
    (fun w => String.mk (w.map Char.toLower))

/-- JavaScript `Array.prototype.join(sep)` on a list of strings. -/
def joinSep (sep : String) : List String → String
  | [] => ""
  | [p] => p
  | p :: rest => p ++ sep ++ joinSep sep rest

/-- changeCase.snakeCase as the code uses it: the no-case words joined by
underscores. -/
def snakeCase (s : String) : String := joinSep "_" (noCaseWords s)

/-- upper-casing the first character of a word, as the camel-case library
does when it re-joins words. -/
def upperFirst (s : String) : String :=
  match s.data with
  | [] => s
  | c :: rest => String.mk (c.toUpper :: rest)

/-- changeCase.camelCase: the no-case words joined with every word after
the first capitalized, except that a word starting with a digit is kept
split off by an underscore. -/
def camelCase (s : String) : String :=
  match noCaseWords s with
  | [] => ""
  | w :: ws => w ++ String.join (ws.map (fun v =>
      match v.data with
      | [] => v
      | c :: _ => if isDigitCh c then "_" ++ v else upperFirst v))

/-- JavaScript `String.prototype.split('_')`: the list of chunks between
underscores, empty chunks kept. -/
def splitUnderscore : List Char → List (List Char)
  | [] => [[]]
  | c :: rest =>
    if c = '_' then [] :: splitUnderscore rest
    else
      match splitUnderscore rest with
      | [] => [[c]]
      | w :: ws => (c :: w) :: ws

/-- JavaScript `String.prototype.replace(pat, '')` with a plain string
pattern: removes the leftmost occurrence of `pat`, if any. -/
def listReplaceFirst (pat : List Char) : List Char → List Char
  | [] => []
  | c :: rest =>
    if List.isPrefixOf pat (c :: rest) then (c :: rest).drop pat.length
    else c :: listReplaceFirst pat rest

/-- string wrapper of `listReplaceFirst`. -/
def stringReplaceFirst (s pat : String) : String :=
  String.mk (listReplaceFirst pat.data s.data)

/-- RouteUtil.predefinedRoutes: the object literal mapping the predefined
method names to router verbs. -/
def predefinedRoutes : String → Option String
  | "list" => some "get"
  | "create" => some "post"
  | "update" => some "patch"
  | "destroy" => some "delete"
  | "show" => some "get"
  | _ => none

/-- RouteUtil.acceptedMethods. -/
def acceptedMethods : List String := ["get", "post", "patch", "put", "delete"]

/-- RouteUtil.routeWithParams. -/
def routeWithParams : List String := ["update", "destroy", "show"]

/-- RouteUtil.ignoredKeys. -/
def ignoredKeys : List String := ["routeMiddlewares", "routeValidation", "routeParams"]

/-- what `typeof controller[key]` reports for an own enumerable property
of a controller instance: a function or something else. -/
inductive PropKind where
  | func
  | other
deriving DecidableEq

/-- a value of the controller's `params` object: an array of parameter
names, or any non-array value (which `Array.isArray` rejects). -/
inductive ParamsEntry where
  | arr (ps : List String)
  | nonArray
deriving DecidableEq

/-- a controller instance as the builder inspects it: its own enumerable
properties with whether each is a function, and its optional `params`
object keyed by method name. Middleware and validation wiring is carried
by express and is not part of any registered path or verb. -/
structure Controller where
  props : List (String × PropKind)
  params : Option (List (String × ParamsEntry))
deriving DecidableEq

/-- the `methodNames` computed in RouteUtil.buildController:
`Object.keys(controller)` filtered to drop the ignored keys and keep only
function-valued properties. -/
def controllerMethodNames (controller : Controller) : List String :=
  (controller.props.filter (fun kv =>
    !ignoredKeys.contains kv.1 && kv.2 == PropKind.func)).map (fun kv => kv.1)

/-- RouteUtil.getDefaultRoutePath: the bare controller path, unless the
method is one of routeWithParams, in which case a `:paramName` segment is
appended. -/
def getDefaultRoutePath (controllerPath methodName paramName : String) : String :=
  if !routeWithParams.contains methodName then controllerPath
  else controllerPath ++ "/:" ++ paramName

/-- RouteUtil.getCustomRouteRequestType: the chunk of the snake-cased
method name before the first underscore (`split('_')[0]`). -/
def getCustomRouteRequestType (methodName : String) : String :=
  String.mk ((splitUnderscore (snakeCase methodName).data).headD [])

/-- RouteUtil.checkIsRouteMethod: the leading word of the method name is
one of the accepted HTTP verbs (`indexOf(...) !== -1`). -/
def checkIsRouteMethod (methodName : String) : Bool :=
  acceptedMethods.contains (getCustomRouteRequestType methodName)

/-- RouteUtil.getCustomRoutePath: the controller path, a slash, the
snake-cased method name with the first occurrence of `requestType + '_'`
removed; then, when the controller's `params` object holds a non-empty
array for this method, `/:` plus the parameter names joined by `/:`. -/
def getCustomRoutePath (controller : Controller) (controllerPath methodName requestType : String) :
    String :=
  let controllerPath2 :=
    controllerPath ++ "/" ++ stringReplaceFirst (snakeCase methodName) (requestType ++ "_")
  match controller.params with
  | some paramsObj =>
    match paramsObj.lookup methodName with
    | some (ParamsEntry.arr ps) =>
      if ps.length != 0 then controllerPath2 ++ "/:" ++ joinSep "/:" ps
      else controllerPath2
    | _ => controllerPath2
  | none => controllerPath2

/-- one route registration performed on the express router: the verb
whose router method was called, the path, and the controller method the
wrapped handler dispatches to. -/
structure Route where
  verb : String
  path : String
  methodName : String
deriving DecidableEq

/-- RouteUtil.buildCustomRoute: registers `router[requestType](path, ...)`
with the request type parsed from the method name. -/
def buildCustomRoute (controller : Controller) (controllerPath methodName : String) : Route :=
  let requestType := getCustomRouteRequestType methodName
  { verb := requestType,
    path := getCustomRoutePath controller controllerPath methodName requestType,
    methodName := methodName }

/-- RouteUtil.buildDefaultRoute: registers `router[requestType](path, ...)`
with the request type looked up in predefinedRoutes (the builder only
calls this when the lookup succeeds). -/
def buildDefaultRoute (controller : Controller) (apiPath methodName paramName : String) : Route :=
  let requestType := (predefinedRoutes methodName).getD ""
  { verb := requestType,
    path := getDefaultRoutePath apiPath methodName paramName,
    methodName := methodName }

/-- one entry of the scanned controller directory tree: a plain file, or
a folder. A folder carries `some controller` when
`require(controllerPath + '/' + className + '.ts')` succeeds and the
exported class instantiates (the `try` in buildController), `none` when
the require throws; its sub-entries are what `readdirSync` returns for
it. -/
inductive FsEntry where
  | file (name : String)
  | dir (name : String) (ctrl : Option Controller) (entries : List FsEntry)

mutual

/-- RouteUtil.buildController: appends the folder name to the API path;
when the controller module fails to load, falls back to scanning the
folder's sub-entries; otherwise registers a custom route for every method
accepted by checkIsRouteMethod, then a default route for every method
present in predefinedRoutes, with the parameter name
`camelCase(folderName) + 'Id'`. -/
def buildController (folderName : String) (ctrl : Option Controller) (entries : List FsEntry)
    (apiPath : String) : List Route :=
  let apiPath2 := apiPath ++ "/" ++ folderName
  match ctrl with
  | none => buildSubFolderRoutes entries apiPath2
  | some controller =>
    let paramName := camelCase folderName ++ "Id"
    let methodNames := controllerMethodNames controller
    (methodNames.filter (fun mn => checkIsRouteMethod mn)).map
        (fun mn => buildCustomRoute controller apiPath2 mn) ++
      (methodNames.filter (fun mn => (predefinedRoutes mn).isSome)).map
        (fun mn => buildDefaultRoute controller apiPath2 mn paramName)

/-- RouteUtil.buildSubFolderRoutes: walks the entries returned by
`readdirSync`, skips plain files, and builds every folder's controller. -/
def buildSubFolderRoutes (entries : List FsEntry) (apiPath : String) : List Route :=
  match entries with
  | [] => []
  | FsEntry.file _ :: rest => buildSubFolderRoutes rest apiPath
  | FsEntry.dir name ctrl sub :: rest =>
    buildController name ctrl sub apiPath ++ buildSubFolderRoutes rest apiPath

end

/-- the spec's reading of the custom sub-path: the snake_case of the
method name with the leading verb prefix (the verb plus an underscore)
removed. Stated with a leading-prefix strip, to be compared with the
code's replace-first-occurrence. -/
def specCustomSubPath (methodName requestType : String) : String :=
  let snake := (snakeCase methodName).data
  let pre := (requestType ++ "_").data
  String.mk (if List.isPrefixOf pre snake then snake.drop pre.length else snake)

/-- the spec's reading of the declared parameters: the non-empty params
array the controller declares for a method, if any. -/
def declaredParams (controller : Controller) (methodName : String) : Option (List String) :=
  match controller.params with
  | some paramsObj =>
    match paramsObj.lookup methodName with
    | some (ParamsEntry.arr ps) => if ps ≠ [] then some ps else none
    | _ => none
  | none => none

/-- the spec's reading of the params suffix: a `/:param` segment appended
for each declared parameter, in declaration order. -/
def specAppendParams (base : String) : List String → String
  | [] => base
  | p :: ps => specAppendParams (base ++ "/:" ++ p) ps

/-- the spec's reading of the full custom route path: controller path,
slash, the verb-stripped snake_case sub-path, then one `/:param` segment
per declared parameter. -/
def specCustomRoutePath (controller : Controller) (controllerPath methodName : String) : String :=
  let base := controllerPath ++ "/" ++ specCustomSubPath methodName (getCustomRouteRequestType methodName)
  match declaredParams controller methodName with
  | some ps => specAppendParams base ps
  | none => base

end RouteUtil

namespace RouteUtil

/-- helper: filtering out the `password` key leaves no `password` key. -/
theorem hasOwnPassword_deletePassword (v : JsValue) :
    hasOwnPassword (deletePassword v) = false := by
  cases v with
  | vObj fields =>
    rw [deletePassword, hasOwnPassword, Bool.eq_false_iff]
    intro h
    rcases List.any_eq_true.mp h with ⟨kv, hmem, heq⟩
    rcases List.mem_filter.mp hmem with ⟨-, hne⟩
    have heq2 : kv.1 = "password" := by simpa using heq
    rw [heq2] at hne
    simp at hne
  | vNull => rfl
  | vUndefined => rfl
  | vBool b => rfl
  | vNum n => rfl
  | vStr s => rfl
  | vArr elems => rfl

/-- helper: only objects are truthy carriers of an own `password` key. -/
theorem truthy_of_hasOwnPassword (v : JsValue) (h : hasOwnPassword v = true) :
    truthy v = true := by
  cases v with
  | vObj fields => rfl
  | vNull => exact absurd h (by simp [hasOwnPassword])
  | vUndefined => exact absurd h (by simp [hasOwnPassword])
  | vBool b => exact absurd h (by simp [hasOwnPassword])
  | vNum n => exact absurd h (by simp [hasOwnPassword])
  | vStr s => exact absurd h (by simp [hasOwnPassword])
  | vArr e => exact absurd h (by simp [hasOwnPassword])

/-- C4 (amended): every body that `resultSend` hands to `res.json` is free
of an own top-level `password` property: either the result never had one,
or `delete result.password` removed it first. -/
theorem json_body_has_no_top_level_password (res : Res) (result b : JsValue)
    (h0 : res.jsonSent = none)
    (hs : (resultSend res result).jsonSent = some b) :
    hasOwnPassword b = false := by
  unfold resultSend at hs
  by_cases h200 : res.statusCode = 200
  · rw [if_pos h200] at hs
    simp only [Option.some.injEq] at hs
    subst hs
    by_cases hpw : hasOwnPassword result = true
    · rw [if_pos (by rw [truthy_of_hasOwnPassword result hpw, hpw]; rfl :
        (truthy result && hasOwnPassword result) = true)]
      exact hasOwnPassword_deletePassword result
    · rw [if_neg (fun hc => hpw (Bool.and_eq_true _ _ |>.mp hc).2)]
      exact Bool.not_eq_true _ |>.mp hpw
  · rw [if_neg h200] at hs
    rw [h0] at hs
    exact Option.noConfusion hs

/-- C4 witness at a concrete input: an object result with a `password`
field is sent without it. -/
theorem json_body_has_no_top_level_password_witness :
    hasOwnPassword (JsValue.vObj [("name", JsValue.vStr "ann")]) = false :=
  json_body_has_no_top_level_password ⟨200, none⟩
    (JsValue.vObj [("password", JsValue.vStr "secret"), ("name", JsValue.vStr "ann")])
    (JsValue.vObj [("name", JsValue.vStr "ann")]) rfl rfl

/-- C4 counterexample: a `password` field nested inside an array element is
not stripped, so the JSON response sent by `resultSend` still contains a
`password` field, refuting the claim that no JSON response contains one. -/
theorem nested_password_reaches_json_response :
    (resultSend ⟨200, none⟩
        (JsValue.vArr [JsValue.vObj [("password", JsValue.vStr "secret")]])).jsonSent =
      some (JsValue.vArr [JsValue.vObj [("password", JsValue.vStr "secret")]]) ∧
    HasPasswordField (JsValue.vArr [JsValue.vObj [("password", JsValue.vStr "secret")]]) := by
  constructor
  · rfl
  · exact HasPasswordField.inArr _ _ (List.mem_singleton.mpr rfl)
      (HasPasswordField.here _ (JsValue.vStr "secret") (List.mem_singleton.mpr rfl))

/-- C6 (amended): a falsy result other than the number 0, with the
response still at status 200, makes the wrapper send the string 'ok'. -/
theorem falsy_nonzero_result_defaults_to_ok (result : JsValue) (res : Res)
    (hfalsy : truthy result = false) (hnz : isNumZero result = false)
    (h200 : res.statusCode = 200) :
    (getControllerMethod (Except.ok result) res).res.jsonSent = some (JsValue.vStr "ok") := by
  unfold getControllerMethod
  simp only [hfalsy, hnz, Bool.not_false, Bool.and_self, if_true]
  unfold resultSend
  simp [h200, truthy, hasOwnPassword]

/-- C6 witness at a concrete input: a null result yields the body 'ok'. -/
theorem falsy_nonzero_result_defaults_to_ok_witness :
    (getControllerMethod (Except.ok JsValue.vNull) ⟨200, none⟩).res.jsonSent =
      some (JsValue.vStr "ok") :=
  falsy_nonzero_result_defaults_to_ok JsValue.vNull ⟨200, none⟩ rfl rfl rfl

/-- C6 counterexample: the number 0 is falsy, yet the wrapper sends the
body 0, not the string 'ok', because of the explicit `result !== 0`
exception in `getControllerMethod`. -/
theorem zero_result_is_not_defaulted_to_ok :
    truthy (JsValue.vNum 0) = false ∧
    (getControllerMethod (Except.ok (JsValue.vNum 0)) ⟨200, none⟩).res.jsonSent =
      some (JsValue.vNum 0) ∧
    JsValue.vNum 0 ≠ JsValue.vStr "ok" :=
  ⟨rfl, rfl, fun h => JsValue.noConfusion h⟩

/-- C7: when the controller method throws (or its promise rejects), the
wrapper passes the error to `next`, leaves the response untouched and
sends nothing itself. -/
theorem thrown_error_is_passed_to_next (e : JsValue) (res : Res) :
    getControllerMethod (Except.error e) res = { res := res, nextCalledWith := some e } := rfl

/-- helper: `resultSend` always serializes some body at status 200. -/
theorem resultSend_sends_when_200 (res : Res) (result : JsValue)
    (h200 : res.statusCode = 200) :
    (resultSend res result).jsonSent =
      some (if truthy result && hasOwnPassword result then deletePassword result else result) := by
  simp only [resultSend]
  rw [if_pos h200]

/-- C8 (amended): when the response status code is 200, a completed
controller method always results in a `res.json` call with some body. -/
theorem completed_handler_sends_json_when_200 (result : JsValue) (res : Res)
    (h200 : res.statusCode = 200) :
    ∃ b, (getControllerMethod (Except.ok result) res).res.jsonSent = some b := by
  simp only [getControllerMethod]
  by_cases hcond : (!truthy result && !isNumZero result) = true
  · rw [if_pos hcond]
    exact ⟨_, resultSend_sends_when_200 res (JsValue.vStr "ok") h200⟩
  · rw [if_neg hcond]
    exact ⟨_, resultSend_sends_when_200 res result h200⟩

/-- C8 witness at a concrete input: a string result at status 200 is
serialized. -/
theorem completed_handler_sends_json_when_200_witness :
    ∃ b, (getControllerMethod (Except.ok (JsValue.vStr "data")) ⟨200, none⟩).res.jsonSent =
      some b :=
  completed_handler_sends_json_when_200 (JsValue.vStr "data") ⟨200, none⟩ rfl

/-- C8 counterexample: with the response status already at 404, the
wrapped handler completes with a result but `resultSend` never calls
`res.json`, so not every completed request is serialized to JSON. -/
theorem non_200_status_sends_no_json :
    (getControllerMethod (Except.ok (JsValue.vStr "data")) ⟨404, none⟩).res.jsonSent = none := rfl

/-- C9: `errorChecker` calls `next()` exactly when the request's
validation result is empty, and otherwise throws a ValidationError whose
message is the first error's param and msg joined by a space. -/
theorem errorChecker_throws_iff_errors (errors : List VError) :
    (errorChecker errors = CheckerOutcome.calledNext ↔ errors = []) ∧
    (∀ e rest, errors = e :: rest →
      errorChecker errors = CheckerOutcome.threwValidationError (e.param ++ " " ++ e.msg)) := by
  cases errors with
  | nil =>
    refine ⟨by simp [errorChecker], ?_⟩
    intro e rest h
    exact List.noConfusion h
  | cons e rest =>
    constructor
    · constructor
      · intro h
        exact CheckerOutcome.noConfusion h
      · intro h
        exact List.noConfusion h
    · intro e2 rest2 h
      cases h
      rfl

/-- C9 witness at a concrete input: one validation error on `email`
produces a ValidationError with message 'email is invalid'. -/
theorem errorChecker_throws_iff_errors_witness :
    errorChecker [⟨"email", "is invalid"⟩] =
      CheckerOutcome.threwValidationError "email is invalid" :=
  (errorChecker_throws_iff_errors [⟨"email", "is invalid"⟩]).2 ⟨"email", "is invalid"⟩ [] rfl

/-- helper: the controller-present branch of buildController, unfolded. -/
theorem buildController_some_eq (folderName : String) (c : Controller) (entries : List FsEntry)
    (apiPath : String) :
    buildController folderName (some c) entries apiPath =
      ((controllerMethodNames c).filter (fun mn => checkIsRouteMethod mn)).map
          (fun mn => buildCustomRoute c (apiPath ++ "/" ++ folderName) mn) ++
        ((controllerMethodNames c).filter (fun mn => (predefinedRoutes mn).isSome)).map
          (fun mn => buildDefaultRoute c (apiPath ++ "/" ++ folderName) mn
            (camelCase folderName ++ "Id")) := by
  rw [buildController]

/-- helper: the failed-require branch of buildController, unfolded. -/
theorem buildController_none_eq (folderName : String) (entries : List FsEntry) (apiPath : String) :
    buildController folderName none entries apiPath =
      buildSubFolderRoutes entries (apiPath ++ "/" ++ folderName) := by
  rw [buildController]

/-- helper: buildSubFolderRoutes skips a plain file. -/
theorem buildSubFolderRoutes_file_eq (n : String) (rest : List FsEntry) (p : String) :
    buildSubFolderRoutes (FsEntry.file n :: rest) p = buildSubFolderRoutes rest p := by
  rw [buildSubFolderRoutes]

/-- helper: buildSubFolderRoutes recurses into a folder. -/
theorem buildSubFolderRoutes_dir_eq (dn : String) (ctrl : Option Controller)
    (sub rest : List FsEntry) (p : String) :
    buildSubFolderRoutes (FsEntry.dir dn ctrl sub :: rest) p =
      buildController dn ctrl sub p ++ buildSubFolderRoutes rest p := by
  rw [buildSubFolderRoutes]

/-- helper: a method accepted by checkIsRouteMethod contributes its custom
route to the registrations of buildController. -/
theorem buildCustomRoute_mem (fn apiPath : String) (entries : List FsEntry) (c : Controller)
    (m : String) (hm : m ∈ controllerMethodNames c) (hc : checkIsRouteMethod m = true) :
    buildCustomRoute c (apiPath ++ "/" ++ fn) m ∈ buildController fn (some c) entries apiPath := by
  rw [buildController_some_eq]
  exact List.mem_append_left _ (List.mem_map_of_mem _ (List.mem_filter.mpr ⟨hm, hc⟩))

/-- helper: a method present in predefinedRoutes contributes its default
route to the registrations of buildController. -/
theorem buildDefaultRoute_mem (fn apiPath : String) (entries : List FsEntry) (c : Controller)
    (m : String) (hm : m ∈ controllerMethodNames c) (hp : (predefinedRoutes m).isSome = true) :
    buildDefaultRoute c (apiPath ++ "/" ++ fn) m (camelCase fn ++ "Id") ∈
      buildController fn (some c) entries apiPath := by
  rw [buildController_some_eq]
  exact List.mem_append_right _ (List.mem_map_of_mem _ (List.mem_filter.mpr ⟨hm, hp⟩))

/-- C1: every controller method named by the predefined set is registered
with the fixed verb mapping: list to get, create to post, update to
patch, destroy to delete, show to get. -/
theorem predefined_methods_use_fixed_verbs (fn apiPath : String) (entries : List FsEntry)
    (c : Controller) (m v : String)
    (hm : m ∈ controllerMethodNames c)
    (hv : (m, v) ∈ [("list", "get"), ("create", "post"), ("update", "patch"),
      ("destroy", "delete"), ("show", "get")]) :
    ∃ r ∈ buildController fn (some c) entries apiPath, r.methodName = m ∧ r.verb = v := by
  have hpre : predefinedRoutes m = some v := by
    simp only [List.mem_cons, List.not_mem_nil, or_false, Prod.mk.injEq] at hv
    rcases hv with ⟨rfl, rfl⟩ | ⟨rfl, rfl⟩ | ⟨rfl, rfl⟩ | ⟨rfl, rfl⟩ | ⟨rfl, rfl⟩ <;> rfl
  refine ⟨buildDefaultRoute c (apiPath ++ "/" ++ fn) m (camelCase fn ++ "Id"),
    buildDefaultRoute_mem fn apiPath entries c m hm (by rw [hpre]; rfl), rfl, ?_⟩
  show (predefinedRoutes m).getD "" = v
  rw [hpre]
  rfl

/-- C1 witness at a concrete input: a controller exposing `list` under the
folder `users` registers it with verb get. -/
theorem predefined_methods_use_fixed_verbs_witness :
    ∃ r ∈ buildController "users" (some (Controller.mk [("list", PropKind.func)] none)) [] "/api",
      r.methodName = "list" ∧ r.verb = "get" :=
  predefined_methods_use_fixed_verbs "users" "/api" []
    (Controller.mk [("list", PropKind.func)] none) "list" "get" (by decide) (by decide)

/-- C2: the predefined methods update, destroy and show are registered at
the controller path with an id route parameter (named after the folder)
appended, while list and create are registered at the bare controller
path. -/
theorem predefined_route_paths_follow_id_convention (fn apiPath : String) (entries : List FsEntry)
    (c : Controller) (m : String) (hm : m ∈ controllerMethodNames c) :
    (m ∈ ["update", "destroy", "show"] →
      ∃ r ∈ buildController fn (some c) entries apiPath,
        r.methodName = m ∧ r.path = (apiPath ++ "/" ++ fn) ++ "/:" ++ (camelCase fn ++ "Id")) ∧
    (m ∈ ["list", "create"] →
      ∃ r ∈ buildController fn (some c) entries apiPath,
        r.methodName = m ∧ r.path = apiPath ++ "/" ++ fn) := by
  constructor
  · intro hin
    have hin2 : m = "update" ∨ m = "destroy" ∨ m = "show" := by simpa using hin
    have hpre : (predefinedRoutes m).isSome = true := by
      rcases hin2 with rfl | rfl | rfl <;> rfl
    refine ⟨buildDefaultRoute c (apiPath ++ "/" ++ fn) m (camelCase fn ++ "Id"),
      buildDefaultRoute_mem fn apiPath entries c m hm hpre, rfl, ?_⟩
    show getDefaultRoutePath (apiPath ++ "/" ++ fn) m (camelCase fn ++ "Id") = _
    rcases hin2 with rfl | rfl | rfl <;> rfl
  · intro hin
    have hin2 : m = "list" ∨ m = "create" := by simpa using hin
    have hpre : (predefinedRoutes m).isSome = true := by
      rcases hin2 with rfl | rfl <;> rfl
    refine ⟨buildDefaultRoute c (apiPath ++ "/" ++ fn) m (camelCase fn ++ "Id"),
      buildDefaultRoute_mem fn apiPath entries c m hm hpre, rfl, ?_⟩
    show getDefaultRoutePath (apiPath ++ "/" ++ fn) m (camelCase fn ++ "Id") = _
    rcases hin2 with rfl | rfl <;> rfl

/-- C2 witness at a concrete input: a controller with all five predefined
methods under the folder `users`. -/
theorem predefined_route_paths_follow_id_convention_witness :
    (("show" : String) ∈ (["update", "destroy", "show"] : List String) →
      ∃ r ∈ buildController "users"
          (some (Controller.mk [("list", PropKind.func), ("create", PropKind.func),
            ("update", PropKind.func), ("destroy", PropKind.func),
            ("show", PropKind.func)] none)) [] "/api",
        r.methodName = "show" ∧ r.path = ("/api" ++ "/" ++ "users") ++ "/:" ++
          (camelCase "users" ++ "Id")) ∧
    (("show" : String) ∈ (["list", "create"] : List String) →
      ∃ r ∈ buildController "users"
          (some (Controller.mk [("list", PropKind.func), ("create", PropKind.func),
            ("update", PropKind.func), ("destroy", PropKind.func),
            ("show", PropKind.func)] none)) [] "/api",
        r.methodName = "show" ∧ r.path = "/api" ++ "/" ++ "users") :=
  predefined_route_paths_follow_id_convention "users" "/api" []
    (Controller.mk [("list", PropKind.func), ("create", PropKind.func),
      ("update", PropKind.func), ("destroy", PropKind.func), ("show", PropKind.func)] none)
    "show" (by decide)

/-- C3 counterexample: `fooBar` is a controller method, is not a
predefined route, yet no route at all is registered for it, because its
leading word `foo` is not an accepted HTTP verb. -/
theorem non_predefined_method_can_be_unregistered :
    "fooBar" ∈ controllerMethodNames (Controller.mk [("fooBar", PropKind.func)] none) ∧
    predefinedRoutes "fooBar" = none ∧
    buildController "users" (some (Controller.mk [("fooBar", PropKind.func)] none)) [] "/api" =
      [] := by
  refine ⟨by decide, rfl, ?_⟩
  rw [buildController_some_eq]
  decide

/-- C3 (amended): a non-predefined controller method is registered as a
custom route under the verb given by its leading word exactly when that
word is one of the accepted HTTP verbs; otherwise it is not registered at
all. -/
theorem custom_routes_only_for_accepted_verbs (fn apiPath : String) (entries : List FsEntry)
    (c : Controller) (m : String)
    (hm : m ∈ controllerMethodNames c) (hnp : predefinedRoutes m = none) :
    (checkIsRouteMethod m = true →
      ∃ r ∈ buildController fn (some c) entries apiPath,
        r.methodName = m ∧ r.verb = getCustomRouteRequestType m) ∧
    (checkIsRouteMethod m = false →
      ∀ r ∈ buildController fn (some c) entries apiPath, r.methodName ≠ m) := by
  constructor
  · intro hc
    exact ⟨buildCustomRoute c (apiPath ++ "/" ++ fn) m,
      buildCustomRoute_mem fn apiPath entries c m hm hc, rfl, rfl⟩
  · intro hc r hr
    rw [buildController_some_eq] at hr
    rcases List.mem_append.mp hr with h | h
    · rcases List.mem_map.mp h with ⟨m2, hm2, rfl⟩
      have hc2 := (List.mem_filter.mp hm2).2
      intro heq
      rw [show (buildCustomRoute c (apiPath ++ "/" ++ fn) m2).methodName = m2 from rfl] at heq
      subst heq
      rw [hc] at hc2
      exact Bool.noConfusion hc2
    · rcases List.mem_map.mp h with ⟨m2, hm2, rfl⟩
      have hp2 := (List.mem_filter.mp hm2).2
      intro heq
      rw [show (buildDefaultRoute c (apiPath ++ "/" ++ fn) m2
        (camelCase fn ++ "Id")).methodName = m2 from rfl] at heq
      subst heq
      rw [hnp] at hp2
      exact Bool.noConfusion hp2

/-- C3 amended-claim witness at a concrete input: `getStats` is not
predefined, its leading word `get` is accepted, and it gets a custom
route with verb get. -/
theorem custom_routes_only_for_accepted_verbs_witness :
    (checkIsRouteMethod "getStats" = true →
      ∃ r ∈ buildController "users"
          (some (Controller.mk [("getStats", PropKind.func)] none)) [] "/api",
        r.methodName = "getStats" ∧ r.verb = getCustomRouteRequestType "getStats") ∧
    (checkIsRouteMethod "getStats" = false →
      ∀ r ∈ buildController "users"
          (some (Controller.mk [("getStats", PropKind.func)] none)) [] "/api",
        r.methodName ≠ "getStats") :=
  custom_routes_only_for_accepted_verbs "users" "/api" []
    (Controller.mk [("getStats", PropKind.func)] none) "getStats" (by decide) rfl

/-- helper: splitUnderscore never returns an empty list of chunks. -/
theorem splitUnderscore_ne_nil (cs : List Char) : splitUnderscore cs ≠ [] := by
  cases cs with
  | nil => exact fun h => List.noConfusion h
  | cons c rest =>
    simp only [splitUnderscore]
    by_cases hc : c = '_'
    · rw [if_pos hc]
      exact fun h => List.noConfusion h
    · rw [if_neg hc]
      cases hsp : splitUnderscore rest with
      | nil => exact fun h => List.noConfusion h
      | cons w ws => exact fun h => List.noConfusion h

/-- helper: the first chunk of splitUnderscore is the whole string when
the string has no underscore, and otherwise the text before the first
underscore. -/
theorem splitUnderscore_head (cs : List Char) :
    ('_' ∉ cs ∧ (splitUnderscore cs).headD [] = cs) ∨
    (∃ rest, cs = (splitUnderscore cs).headD [] ++ '_' :: rest) := by
  induction cs with
  | nil => exact Or.inl ⟨List.not_mem_nil _, rfl⟩
  | cons c rest ih =>
    by_cases hc : c = '_'
    · subst hc
      refine Or.inr ⟨rest, ?_⟩
      simp [splitUnderscore]
    · cases hsp : splitUnderscore rest with
      | nil => exact absurd hsp (splitUnderscore_ne_nil rest)
      | cons w ws =>
        have hhead : (splitUnderscore (c :: rest)).headD [] = c :: w := by
          simp only [splitUnderscore, if_neg hc, hsp, List.headD_cons]
        rcases ih with ⟨hmem, hh⟩ | ⟨r, hr⟩
        · refine Or.inl ⟨?_, ?_⟩
          · intro hin
            rcases List.mem_cons.mp hin with h | h
            · exact hc h.symm
            · exact hmem h
          · rw [hhead]
            rw [hsp] at hh
            simp only [List.headD_cons] at hh
            rw [hh]
        · refine Or.inr ⟨r, ?_⟩
          rw [hhead]
          rw [hsp] at hr
          simp only [List.headD_cons] at hr
          rw [List.cons_append, ← hr]

/-- helper: replace-first removes the pattern from the front when the
pattern is a prefix. -/
theorem listReplaceFirst_of_isPrefixOf (pat s : List Char)
    (h : List.isPrefixOf pat s = true) :
    listReplaceFirst pat s = s.drop pat.length := by
  cases s with
  | nil =>
    have hnil : pat = [] := List.prefix_nil.mp (List.isPrefixOf_iff_prefix.mp h)
    subst hnil
    rfl
  | cons c rest =>
    simp only [listReplaceFirst, if_pos h]

/-- helper: replace-first does nothing when the pattern holds an
underscore and the string has none. -/
theorem listReplaceFirst_no_occurrence (pat s : List Char)
    (hp : '_' ∈ pat) (hs : '_' ∉ s) :
    listReplaceFirst pat s = s := by
  induction s with
  | nil => rfl
  | cons c rest ih =>
    have hcond : ¬ (List.isPrefixOf pat (c :: rest) = true) := by
      intro h
      exact hs (((List.isPrefixOf_iff_prefix.mp h).sublist).mem hp)
    simp only [listReplaceFirst, if_neg hcond]
    rw [ih (fun hm => hs (List.mem_cons_of_mem c hm))]

/-- helper (refinement heart of C5): removing the first occurrence of
`requestType + '_'` from the snake-cased method name is the same as
stripping it as a leading prefix, because the request type is exactly the
chunk before the first underscore. -/
theorem stringReplaceFirst_eq_specCustomSubPath (m : String) :
    stringReplaceFirst (snakeCase m) (getCustomRouteRequestType m ++ "_") =
      specCustomSubPath m (getCustomRouteRequestType m) := by
  have hdata : (getCustomRouteRequestType m ++ "_").data =
      (splitUnderscore (snakeCase m).data).headD [] ++ ['_'] := by
    rw [String.data_append]
    rfl
  simp only [stringReplaceFirst, specCustomSubPath]
  rw [hdata]
  rcases splitUnderscore_head (snakeCase m).data with ⟨hmem, hh⟩ | ⟨r, hr⟩
  · rw [hh]
    have hnp : ¬ (List.isPrefixOf ((snakeCase m).data ++ ['_']) (snakeCase m).data = true) := by
      intro h
      have hlen := (List.isPrefixOf_iff_prefix.mp h).length_le
      simp at hlen
    rw [if_neg hnp]
    rw [listReplaceFirst_no_occurrence _ _ (by simp) hmem]
  · have hpre : List.isPrefixOf
        ((splitUnderscore (snakeCase m).data).headD [] ++ ['_']) (snakeCase m).data = true := by
      rw [List.isPrefixOf_iff_prefix]
      exact ⟨r, by rw [← List.append_cons, ← hr]⟩
    rw [if_pos hpre, listReplaceFirst_of_isPrefixOf _ _ hpre]

/-- helper: appending one `/:param` segment per parameter equals the
code's `'/:' + params.join('/:')` for a non-empty parameter list. -/
theorem specAppendParams_eq (p : String) (ps : List String) (base : String) :
    specAppendParams base (p :: ps) = base ++ "/:" ++ joinSep "/:" (p :: ps) := by
  induction ps generalizing p base with
  | nil => simp [specAppendParams, joinSep]
  | cons q qs ih =>
    rw [specAppendParams, ih q (base ++ "/:" ++ p)]
    rw [show joinSep "/:" (p :: q :: qs) = p ++ "/:" ++ joinSep "/:" (q :: qs) from rfl]
    simp [String.append_assoc]

/-- helper: the code's custom route path coincides with the spec's
reading of it. -/
theorem getCustomRoutePath_eq_spec (c : Controller) (cp m : String) :
    getCustomRoutePath c cp m (getCustomRouteRequestType m) = specCustomRoutePath c cp m := by
  rcases hp : c.params with _ | paramsObj
  · simp only [getCustomRoutePath, specCustomRoutePath, declaredParams, hp,
      stringReplaceFirst_eq_specCustomSubPath]
  · rcases hlk : paramsObj.lookup m with _ | pe
    · simp only [getCustomRoutePath, specCustomRoutePath, declaredParams, hp, hlk,
        stringReplaceFirst_eq_specCustomSubPath]
    · cases pe with
      | nonArray =>
        simp only [getCustomRoutePath, specCustomRoutePath, declaredParams, hp, hlk,
          stringReplaceFirst_eq_specCustomSubPath]
      | arr ps =>
        cases ps with
        | nil =>
          simp [getCustomRoutePath, specCustomRoutePath, declaredParams, hp, hlk,
            stringReplaceFirst_eq_specCustomSubPath]
        | cons p ps2 =>
          simp only [getCustomRoutePath, specCustomRoutePath, declaredParams, hp, hlk,
            stringReplaceFirst_eq_specCustomSubPath]
          rw [if_pos (by simp : ((p :: ps2).length != 0) = true)]
          rw [if_pos (by simp : (p :: ps2) ≠ ([] : List String))]
          exact (specAppendParams_eq p ps2
            (cp ++ "/" ++ specCustomSubPath m (getCustomRouteRequestType m))).symm

/-- C5: every custom route is registered at the controller path followed
by the snake_case of the method name with its leading verb prefix (verb
plus underscore) removed, with one `/:param` segment appended per
declared parameter, in declaration order. -/
theorem custom_route_path_follows_convention (fn apiPath : String) (entries : List FsEntry)
    (c : Controller) (m : String)
    (hm : m ∈ controllerMethodNames c) (hc : checkIsRouteMethod m = true) :
    ∃ r ∈ buildController fn (some c) entries apiPath,
      r.methodName = m ∧ r.verb = getCustomRouteRequestType m ∧
      r.path = specCustomRoutePath c (apiPath ++ "/" ++ fn) m :=
  ⟨buildCustomRoute c (apiPath ++ "/" ++ fn) m,
   buildCustomRoute_mem fn apiPath entries c m hm hc, rfl, rfl,
   getCustomRoutePath_eq_spec c (apiPath ++ "/" ++ fn) m⟩

/-- C5 witness at a concrete input: `getUserStats` with one declared
parameter `statId` under the folder `users`. -/
theorem custom_route_path_follows_convention_witness :
    ∃ r ∈ buildController "users"
        (some (Controller.mk [("getUserStats", PropKind.func)]
          (some [("getUserStats", ParamsEntry.arr ["statId"])]))) [] "/api",
      r.methodName = "getUserStats" ∧
      r.verb = getCustomRouteRequestType "getUserStats" ∧
      r.path = specCustomRoutePath
        (Controller.mk [("getUserStats", PropKind.func)]
          (some [("getUserStats", ParamsEntry.arr ["statId"])]))
        ("/api" ++ "/" ++ "users") "getUserStats" :=
  custom_route_path_follows_convention "users" "/api" []
    (Controller.mk [("getUserStats", PropKind.func)]
      (some [("getUserStats", ParamsEntry.arr ["statId"])]))
    "getUserStats" (by decide) (by decide)

/-- C10: when the controller module of a folder fails to load, the folder
name is still appended to the API path and the folder is scanned as a
namespace: its sub-entries are walked, plain files are skipped, and each
sub-folder is built as a controller under the extended path. -/
theorem failed_controller_load_scans_subfolders :
    (∀ (fn apiPath : String) (entries : List FsEntry),
      buildController fn none entries apiPath =
        buildSubFolderRoutes entries (apiPath ++ "/" ++ fn)) ∧
    (∀ (n : String) (rest : List FsEntry) (p : String),
      buildSubFolderRoutes (FsEntry.file n :: rest) p = buildSubFolderRoutes rest p) ∧
    (∀ (dn : String) (ctrl : Option Controller) (sub rest : List FsEntry) (p : String),
      buildSubFolderRoutes (FsEntry.dir dn ctrl sub :: rest) p =
        buildController dn ctrl sub p ++ buildSubFolderRoutes rest p) :=
  ⟨fun fn apiPath entries => buildController_none_eq fn entries apiPath,
   fun n rest p => buildSubFolderRoutes_file_eq n rest p,
   fun dn ctrl sub rest p => buildSubFolderRoutes_dir_eq dn ctrl sub rest p⟩

end RouteUtil
